import Mathlib

/-!
# Verification of the managed container run controller

Shallow embedding of `runManager` (cli/cmd/lib_manager.go) from the
cortex repository, together with proofs about its lifecycle behaviour.

The container engine (docker client) is an external collaborator; it is
modelled as an oracle structure `DockerEnv` giving the outcome of every
engine call the controller performs.  The controller itself is embedded
as a pure function from that oracle (plus its Go arguments) to the run
result, the trace of engine calls it performed, and the final state of
the container configuration it was handed.  A Go runtime panic (indexing
an empty slice) is modelled by the whole function returning `none`.
-/

/-- The subset of the docker `container.Config` structure that
`runManager` reads or writes: image reference, entrypoint, command,
TTY flag, attach flags, and environment list (`key=value` strings). -/
structure ContainerConfig where
  Image : String
  Entrypoint : List String
  Cmd : List String
  Tty : Bool
  AttachStdout : Bool
  AttachStderr : Bool
  Env : List String
deriving DecidableEq, Repr

/-- Mirrors `dockerCopyToPath` (lib_manager.go): a copy-in directive.
The `archive.Input` file-set description is external to the core and is
modelled as an opaque string token. -/
structure dockerCopyToPath where
  input : String
  containerPath : String
deriving DecidableEq, Repr

/-- Mirrors `dockerCopyFromPath` (lib_manager.go): a copy-out directive. -/
structure dockerCopyFromPath where
  containerPath : String
  localDir : String
deriving DecidableEq, Repr

/-- The part of the docker inspect response that `runManager` reads:
`info.State.Running` and `info.State.ExitCode`. -/
structure ContainerState where
  Running : Bool
  ExitCode : Int
deriving DecidableEq, Repr

/-- The triple returned by `runManager`: captured output text, optional
exit code (`none` models Go's nil `*int`), optional error (`none`
models a nil error). -/
structure RunResult where
  output : String
  exitCode : Option Int
  err : Option String
deriving DecidableEq, Repr

/-- One engine call performed by the controller, recorded in the order
the calls are issued.  `remove` records the removal options
(`RemoveVolumes`, `Force`) passed to `ContainerRemove`. -/
inductive Event where
  | pull (image : String)
  | create
  | copyTo (p : dockerCopyToPath)
  | start
  | attach
  | inspect
  | copyFrom (p : dockerCopyFromPath)
  | remove (id : String) (removeVolumes : Bool) (force : Bool)
deriving DecidableEq, Repr

/-- Oracle for the container engine client: the outcome of each call the
controller can make during one run.  Errors are their message strings.
`containerRemove` is the outcome of the removal call; the Go code
discards it (`_ = dockerClient.ContainerRemove(...)`). -/
structure DockerEnv where
  getDockerClient : Except String Unit
  pullImage : Except String Bool
  containerCreate : Except String String
  copyToContainer : dockerCopyToPath → Option String
  containerStart : Option String
  containerAttach : Except String String
  streamCopyErr : Option String
  containerInspect : Except String ContainerState
  copyFromContainer : dockerCopyFromPath → Option String
  containerRemove : Option String

/-- `consts.CortexVersion` (pkg/consts, outside the embedded core): a
fixed version string; its value is irrelevant to every claim. -/
def CortexVersion : String := "master"

/-- The environment entry appended by line 56 of lib_manager.go. -/
def cortexVersionEnvEntry : String := "CORTEX_CLI_VERSION=" ++ CortexVersion

/-- The string prepended to `Cmd[0]` by line 59 of lib_manager.go. -/
def cmdAugmentation : String := "sleep 0.1 && /root/check_cortex_version.sh && "

/-- Lines 56-59 of lib_manager.go: append the CLI-version environment
entry and prepend the fixed delay plus version-compatibility check to
`Cmd[0]`.  Go indexes `Cmd[0]` unconditionally, so an empty command
list is a runtime panic, modelled as `none`. -/
def augmentConfig (containerConfig : ContainerConfig) : Option ContainerConfig :=
  match containerConfig.Cmd with
  | [] => none
  | c0 :: rest =>
    some { containerConfig with
      Env := containerConfig.Env ++ [cortexVersionEnvEntry],
      Cmd := (cmdAugmentation ++ c0) :: rest }

/-- Does the list of characters `s` begin with `pat`? (helper for the
Go `strings.Contains` test on line 68). -/
def beginsWith : List Char → List Char → Bool
  | _, [] => true
  | [], _ :: _ => false
  | c :: cs, d :: ds => decide (c = d) && beginsWith cs ds

/-- Does `pat` occur as a contiguous run inside `s`? -/
def containsSub : List Char → List Char → Bool
  | [], pat => pat.isEmpty
  | c :: cs, pat => beginsWith (c :: cs) pat || containsSub cs pat

/-- Go `strings.Contains s sub`. -/
def goContains (s sub : String) : Bool := containsSub s.data sub.data

/-- Lines 67-71 of lib_manager.go: if a pull error mentions "auth",
append actionable login/pull guidance before propagating. -/
def enrichPullError (image err : String) : String :=
  if goContains err "auth" then
    err ++ "\n\nif your manager image is stored in a private repository: run `docker login` (if you haven\x27t already), download your image with `docker pull " ++ image ++ "`, and try this command again)"
  else err

/-- Line 135 of lib_manager.go rewrites every `\r\n` to `\n` via Go's
`strings.ReplaceAll`, which replaces non-overlapping instances left to
right.  List-of-characters form. -/
def replaceCRLF : List Char → List Char
  | [] => []
  | '\r' :: '\n' :: rest => '\n' :: replaceCRLF rest
  | c :: rest => c :: replaceCRLF rest

/-- `strings.ReplaceAll(s, "\r\n", "\n")` on strings. -/
def normalizeOutput (s : String) : String := String.mk (replaceCRLF s.data)

/-- First error of the copy-in loop (lines 104-109): directives are
attempted in order and the loop stops at the first failure. -/
def copyInErr (f : dockerCopyToPath → Option String) : List dockerCopyToPath → Option String
  | [] => none
  | p :: rest =>
    match f p with
    | some e => some e
    | none => copyInErr f rest

/-- Engine calls issued by the copy-in loop: one `copyTo` per attempted
directive, stopping after the first failure. -/
def copyInEvents (f : dockerCopyToPath → Option String) : List dockerCopyToPath → List Event
  | [] => []
  | p :: rest =>
    match f p with
    | some _ => [Event.copyTo p]
    | none => Event.copyTo p :: copyInEvents f rest

/-- First error of the copy-out loop (lines 148-153). -/
def copyOutErr (g : dockerCopyFromPath → Option String) : List dockerCopyFromPath → Option String
  | [] => none
  | p :: rest =>
    match g p with
    | some e => some e
    | none => copyOutErr g rest

/-- Engine calls issued by the copy-out loop. -/
def copyOutEvents (g : dockerCopyFromPath → Option String) : List dockerCopyFromPath → List Event
  | [] => []
  | p :: rest =>
    match g p with
    | some _ => [Event.copyFrom p]
    | none => Event.copyFrom p :: copyOutEvents g rest

/-- Lines 104-161 of lib_manager.go: the part of `runManager` executed
while `removeContainer` is deferred — copy-in, start, attach, stream
fan-out, inspect, conditional copy-out, and result selection.  Returns
the run result and the engine calls issued by this part (the deferred
removal itself is appended by `runManager`). -/
def managerBody (env : DockerEnv) (copyToPaths : List dockerCopyToPath)
    (copyFromPaths : List dockerCopyFromPath) : RunResult × List Event :=
  match copyInErr env.copyToContainer copyToPaths with
  | some e => (⟨"", none, some e⟩, copyInEvents env.copyToContainer copyToPaths)
  | none =>
    match env.containerStart with
    | some e => (⟨"", none, some e⟩, copyInEvents env.copyToContainer copyToPaths ++ [Event.start])
    | none =>
      match env.containerAttach with
      | .error e => (⟨"", none, some e⟩, copyInEvents env.copyToContainer copyToPaths ++ [Event.start, Event.attach])
      | .ok stream =>
        match env.streamCopyErr with
        | some e => (⟨"", none, some e⟩, copyInEvents env.copyToContainer copyToPaths ++ [Event.start, Event.attach])
        | none =>
          match env.containerInspect with
          | .error e => (⟨"", none, some e⟩, copyInEvents env.copyToContainer copyToPaths ++ [Event.start, Event.attach, Event.inspect])
          | .ok info =>
            if info.ExitCode = 0 then
              match copyOutErr env.copyFromContainer copyFromPaths with
              | some e => (⟨"", none, some e⟩, copyInEvents env.copyToContainer copyToPaths ++ [Event.start, Event.attach, Event.inspect] ++ copyOutEvents env.copyFromContainer copyFromPaths)
              | none =>
                if info.Running then
                  (⟨normalizeOutput stream, none, none⟩, copyInEvents env.copyToContainer copyToPaths ++ [Event.start, Event.attach, Event.inspect] ++ copyOutEvents env.copyFromContainer copyFromPaths)
                else
                  (⟨normalizeOutput stream, some info.ExitCode, none⟩, copyInEvents env.copyToContainer copyToPaths ++ [Event.start, Event.attach, Event.inspect] ++ copyOutEvents env.copyFromContainer copyFromPaths)
            else
              if info.Running then
                (⟨normalizeOutput stream, none, none⟩, copyInEvents env.copyToContainer copyToPaths ++ [Event.start, Event.attach, Event.inspect])
              else
                (⟨normalizeOutput stream, some info.ExitCode, none⟩, copyInEvents env.copyToContainer copyToPaths ++ [Event.start, Event.attach, Event.inspect])

/-- `runManager` (lines 55-161 of lib_manager.go) as a pure function of
the engine oracle.  Returns `none` on the Go panic (empty `Cmd`), and
otherwise the run result, the full engine-call trace, and the final
state of the container configuration.  The deferred `removeContainer`
(force, with volumes) runs on every exit path registered after creation
succeeds; its own result (`env.containerRemove`) is discarded, exactly
as the Go code assigns it to `_`.  The interrupt watcher (lines 92-102)
and terminal progress printing are concurrency / console effects not
modelled here. -/
def runManager (env : DockerEnv) (containerConfig : ContainerConfig)
    (addNewLineAfterPull : Bool) (copyToPaths : List dockerCopyToPath)
    (copyFromPaths : List dockerCopyFromPath) :
    Option (RunResult × List Event × ContainerConfig) :=
  match augmentConfig containerConfig with
  | none => none
  | some cfg =>
    match env.getDockerClient with
    | .error e => some (⟨"", none, some e⟩, [], cfg)
    | .ok _ =>
      match env.pullImage with
      | .error e => some (⟨"", none, some (enrichPullError cfg.Image e)⟩, [Event.pull cfg.Image], cfg)
      | .ok _pulled =>
        match env.containerCreate with
        | .error e => some (⟨"", none, some e⟩, [Event.pull cfg.Image, Event.create], cfg)
        | .ok id =>
          some ((managerBody env copyToPaths copyFromPaths).1,
            [Event.pull cfg.Image, Event.create]
              ++ (managerBody env copyToPaths copyFromPaths).2
              ++ [Event.remove id true true],
            cfg)

/-- Is an event the container-removal call? -/
def isRemoveEvent : Event → Bool
  | .remove _ _ _ => true
  | _ => false

/-- Is an event a copy-in call? -/
def isCopyToEvent : Event → Bool
  | .copyTo _ => true
  | _ => false

/-- Is an event a copy-out call? -/
def isCopyFromEvent : Event → Bool
  | .copyFrom _ => true
  | _ => false

/-- Did the three calls preceding cleanup registration all succeed
(client acquisition, pull, create)? -/
def creationSucceeded (env : DockerEnv) : Bool :=
  (match env.getDockerClient with | .ok _ => true | .error _ => false)
    && (match env.pullImage with | .ok _ => true | .error _ => false)
    && (match env.containerCreate with | .ok _ => true | .error _ => false)

/-- No copy-in call occurs in the trace. -/
def noCopyTo : List Event → Bool
  | [] => true
  | Event.copyTo _ :: _ => false
  | _ :: rest => noCopyTo rest

/-- Every copy-in call in the trace occurs strictly before any `start`
call. -/
def copyTosBeforeStart : List Event → Bool
  | [] => true
  | Event.start :: rest => noCopyTo rest
  | _ :: rest => copyTosBeforeStart rest

/-- Does the character list contain a carriage return immediately
followed by a `\r\n` pair?  This is the one shape on which a second
normalization pass differs from the first. -/
def hasCRCRLF : List Char → Bool
  | '\r' :: '\r' :: '\n' :: _ => true
  | _ :: rest => hasCRCRLF rest
  | [] => false

-- Concrete environments and inputs used to witness the theorems below.

/-- A configuration of the shape both invocation variants build. -/
def cfgEx : ContainerConfig :=
  { Image := "img"
    Entrypoint := ["/bin/bash", "-c"]
    Cmd := ["echo hi"]
    Tty := true
    AttachStdout := true
    AttachStderr := true
    Env := ["A=1"] }

/-- A configuration with an empty command list. -/
def cfgNoCmd : ContainerConfig :=
  { cfgEx with Cmd := [] }

/-- One concrete copy-in directive. -/
def pIn : dockerCopyToPath := ⟨"bundle", "/in"⟩

/-- One concrete copy-out directive. -/
def pOut : dockerCopyFromPath := ⟨"/out", "/tmp/out"⟩

/-- Oracle for a fully successful run terminating with exit code 0. -/
def envAllOk : DockerEnv :=
  { getDockerClient := .ok ()
    pullImage := .ok false
    containerCreate := .ok "cid"
    copyToContainer := fun _ => none
    containerStart := none
    containerAttach := .ok "hello\r\nworld\r\n"
    streamCopyErr := none
    containerInspect := .ok ⟨false, 0⟩
    copyFromContainer := fun _ => none
    containerRemove := none }

/-- Oracle whose inspect response still reports the container running
(with the zero exit code docker reports for a running container). -/
def envRunning : DockerEnv :=
  { envAllOk with containerInspect := .ok ⟨true, 0⟩ }

/-- Oracle in which every copy-out attempt fails. -/
def envCopyOutFail : DockerEnv :=
  { envAllOk with copyFromContainer := fun _ => some "copy out failed" }

/-- Oracle in which the pull fails. -/
def envPullFail : DockerEnv :=
  { envAllOk with pullImage := .error "pull failed" }

/-- Oracle in which every copy-in attempt fails. -/
def envCopyInFail : DockerEnv :=
  { envAllOk with copyToContainer := fun _ => some "copy in failed" }

/-- Oracle in which inspection fails. -/
def envInspectFail : DockerEnv :=
  { envAllOk with containerInspect := .error "inspect failed" }

-- Helper lemmas about the copy loops and trace predicates.

theorem copyInErr_all_ok (f : dockerCopyToPath → Option String) :
    ∀ l : List dockerCopyToPath, (∀ p ∈ l, f p = none) → copyInErr f l = none
  | [], _ => rfl
  | p :: rest, h => by
    unfold copyInErr
    rw [h p (by simp)]
    exact copyInErr_all_ok f rest fun q hq => h q (by simp [hq])

theorem copyInEvents_all_ok (f : dockerCopyToPath → Option String) :
    ∀ l : List dockerCopyToPath, (∀ p ∈ l, f p = none) →
      copyInEvents f l = l.map Event.copyTo
  | [], _ => rfl
  | p :: rest, h => by
    unfold copyInEvents
    rw [h p (by simp)]
    simp [copyInEvents_all_ok f rest fun q hq => h q (by simp [hq])]

theorem copyInErr_firstFail (f : dockerCopyToPath → Option String)
    (p : dockerCopyToPath) (e : String) (post : List dockerCopyToPath) :
    ∀ pre : List dockerCopyToPath, (∀ q ∈ pre, f q = none) → f p = some e →
      copyInErr f (pre ++ p :: post) = some e
  | [], _, hp => by
    rw [List.nil_append]; unfold copyInErr; rw [hp]
  | q :: pre, h, hp => by
    rw [List.cons_append]; unfold copyInErr
    rw [h q (by simp)]
    exact copyInErr_firstFail f p e post pre (fun q' hq' => h q' (by simp [hq'])) hp

theorem copyInEvents_firstFail (f : dockerCopyToPath → Option String)
    (p : dockerCopyToPath) (e : String) (post : List dockerCopyToPath) :
    ∀ pre : List dockerCopyToPath, (∀ q ∈ pre, f q = none) → f p = some e →
      copyInEvents f (pre ++ p :: post) = (pre ++ [p]).map Event.copyTo
  | [], _, hp => by
    rw [List.nil_append]; unfold copyInEvents; rw [hp]; rfl
  | q :: pre, h, hp => by
    rw [List.cons_append]; unfold copyInEvents
    rw [h q (by simp)]
    simp [copyInEvents_firstFail f p e post pre (fun q' hq' => h q' (by simp [hq'])) hp]

theorem copyOutErr_all_ok (g : dockerCopyFromPath → Option String) :
    ∀ l : List dockerCopyFromPath, (∀ p ∈ l, g p = none) → copyOutErr g l = none
  | [], _ => rfl
  | p :: rest, h => by
    unfold copyOutErr
    rw [h p (by simp)]
    exact copyOutErr_all_ok g rest fun q hq => h q (by simp [hq])

theorem copyOutEvents_all_ok (g : dockerCopyFromPath → Option String) :
    ∀ l : List dockerCopyFromPath, (∀ p ∈ l, g p = none) →
      copyOutEvents g l = l.map Event.copyFrom
  | [], _ => rfl
  | p :: rest, h => by
    unfold copyOutEvents
    rw [h p (by simp)]
    simp [copyOutEvents_all_ok g rest fun q hq => h q (by simp [hq])]

theorem copyOutErr_firstFail (g : dockerCopyFromPath → Option String)
    (p : dockerCopyFromPath) (e : String) (post : List dockerCopyFromPath) :
    ∀ pre : List dockerCopyFromPath, (∀ q ∈ pre, g q = none) → g p = some e →
      copyOutErr g (pre ++ p :: post) = some e
  | [], _, hp => by
    rw [List.nil_append]; unfold copyOutErr; rw [hp]
  | q :: pre, h, hp => by
    rw [List.cons_append]; unfold copyOutErr
    rw [h q (by simp)]
    exact copyOutErr_firstFail g p e post pre (fun q' hq' => h q' (by simp [hq'])) hp

theorem filter_isRemove_copyInEvents (f : dockerCopyToPath → Option String) :
    ∀ l : List dockerCopyToPath, (copyInEvents f l).filter isRemoveEvent = []
  | [] => rfl
  | p :: rest => by
    unfold copyInEvents
    cases f p <;> simp [isRemoveEvent, filter_isRemove_copyInEvents f rest]

theorem filter_isRemove_copyOutEvents (g : dockerCopyFromPath → Option String) :
    ∀ l : List dockerCopyFromPath, (copyOutEvents g l).filter isRemoveEvent = []
  | [] => rfl
  | p :: rest => by
    unfold copyOutEvents
    cases g p <;> simp [isRemoveEvent, filter_isRemove_copyOutEvents g rest]

theorem filter_isCopyFrom_copyInEvents (f : dockerCopyToPath → Option String) :
    ∀ l : List dockerCopyToPath, (copyInEvents f l).filter isCopyFromEvent = []
  | [] => rfl
  | p :: rest => by
    unfold copyInEvents
    cases f p <;> simp [isCopyFromEvent, filter_isCopyFrom_copyInEvents f rest]

theorem filter_isCopyTo_copyOutEvents (g : dockerCopyFromPath → Option String) :
    ∀ l : List dockerCopyFromPath, (copyOutEvents g l).filter isCopyToEvent = []
  | [] => rfl
  | p :: rest => by
    unfold copyOutEvents
    cases g p <;> simp [isCopyToEvent, filter_isCopyTo_copyOutEvents g rest]

theorem noCopyTo_copyOutEvents_append (g : dockerCopyFromPath → Option String)
    (t : List Event) :
    ∀ l : List dockerCopyFromPath, noCopyTo (copyOutEvents g l ++ t) = noCopyTo t
  | [] => rfl
  | p :: rest => by
    unfold copyOutEvents
    cases g p <;> simp [noCopyTo, noCopyTo_copyOutEvents_append g t rest]

theorem copyTosBeforeStart_copyInEvents_append (f : dockerCopyToPath → Option String)
    (t : List Event) :
    ∀ l : List dockerCopyToPath,
      copyTosBeforeStart (copyInEvents f l ++ t) = copyTosBeforeStart t
  | [] => rfl
  | p :: rest => by
    unfold copyInEvents
    cases f p <;>
      simp [copyTosBeforeStart, copyTosBeforeStart_copyInEvents_append f t rest]

theorem managerBody_filter_isRemove (env : DockerEnv) (cin : List dockerCopyToPath)
    (cout : List dockerCopyFromPath) :
    ((managerBody env cin cout).2).filter isRemoveEvent = [] := by
  unfold managerBody
  repeat' split
  all_goals
    simp [List.filter_append, filter_isRemove_copyInEvents,
      filter_isRemove_copyOutEvents, isRemoveEvent]

theorem runManager_remove_frame (env : DockerEnv) (x : Option String)
    (cfg : ContainerConfig) (b : Bool) (cin : List dockerCopyToPath)
    (cout : List dockerCopyFromPath) :
    runManager { env with containerRemove := x } cfg b cin cout =
      runManager env cfg b cin cout := by
  cases env
  rfl

/-- Claim C1: for every run in which container creation succeeds, the
container-removal action (force, with volumes) is invoked exactly once
before the invocation ends, on every exit path, and any error from the
removal itself is swallowed, never returned as the run's error; before
creation succeeds the removal action is never invoked. -/
theorem c1_removal_exactly_once
    (env : DockerEnv) (cfg : ContainerConfig) (b : Bool)
    (cin : List dockerCopyToPath) (cout : List dockerCopyFromPath)
    (r : RunResult) (t : List Event) (c : ContainerConfig)
    (hrun : runManager env cfg b cin cout = some (r, t, c)) :
    (∀ id, creationSucceeded env = true → env.containerCreate = Except.ok id →
        t.filter isRemoveEvent = [Event.remove id true true]) ∧
    (creationSucceeded env = false → t.filter isRemoveEvent = []) ∧
    (∀ x, runManager { env with containerRemove := x } cfg b cin cout = some (r, t, c)) := by
  refine ⟨?_, ?_, fun x => by rw [runManager_remove_frame]; exact hrun⟩
  · intro id hcs hc
    unfold creationSucceeded at hcs
    cases hg : env.getDockerClient with
    | error e => rw [hg] at hcs; simp at hcs
    | ok u =>
      cases hp : env.pullImage with
      | error e => rw [hg, hp] at hcs; simp at hcs
      | ok pb =>
        unfold runManager at hrun
        split at hrun
        · exact Option.noConfusion hrun
        · simp only [hg, hp, hc] at hrun
          simp only [Option.some.injEq, Prod.mk.injEq] at hrun
          obtain ⟨h1, h2, h3⟩ := hrun
          rw [← h2]
          simp [List.filter_append, managerBody_filter_isRemove, isRemoveEvent]
  · intro hcs
    unfold runManager at hrun
    split at hrun
    · exact Option.noConfusion hrun
    · cases hg : env.getDockerClient with
      | error e =>
        simp only [hg] at hrun
        simp only [Option.some.injEq, Prod.mk.injEq] at hrun
        obtain ⟨h1, h2, h3⟩ := hrun
        rw [← h2]; rfl
      | ok u =>
        cases hp : env.pullImage with
        | error e =>
          simp only [hg, hp] at hrun
          simp only [Option.some.injEq, Prod.mk.injEq] at hrun
          obtain ⟨h1, h2, h3⟩ := hrun
          rw [← h2]; simp [isRemoveEvent]
        | ok pb =>
          cases hc : env.containerCreate with
          | error e =>
            simp only [hg, hp, hc] at hrun
            simp only [Option.some.injEq, Prod.mk.injEq] at hrun
            obtain ⟨h1, h2, h3⟩ := hrun
            rw [← h2]; simp [isRemoveEvent]
          | ok id =>
            unfold creationSucceeded at hcs
            rw [hg, hp, hc] at hcs
            simp at hcs

/-- The run result on the fully successful run `envAllOk`. -/
def rOkEx : RunResult := ⟨"hello\nworld\n", some 0, none⟩

/-- The engine-call trace on the fully successful run `envAllOk` with no
copy directives. -/
def tOkEx : List Event :=
  [Event.pull "img", Event.create, Event.start, Event.attach, Event.inspect,
   Event.remove "cid" true true]

/-- The configuration after the controller's augmentation step. -/
def cfgExAug : ContainerConfig :=
  { cfgEx with
      Env := cfgEx.Env ++ [cortexVersionEnvEntry],
      Cmd := [cmdAugmentation ++ "echo hi"] }

theorem c1_removal_exactly_once_witness :
    runManager envAllOk cfgEx false [] [] = some (rOkEx, tOkEx, cfgExAug) ∧
      tOkEx.filter isRemoveEvent = [Event.remove "cid" true true] :=
  ⟨by decide,
    (c1_removal_exactly_once envAllOk cfgEx false [] [] rOkEx tOkEx cfgExAug
      (by decide)).1 "cid" (by decide) rfl⟩

theorem filter_isCopyFrom_mapCopyTo (l : List dockerCopyToPath) :
    (l.map Event.copyTo).filter isCopyFromEvent = [] := by
  induction l with
  | nil => rfl
  | cons p rest ih => simp [isCopyFromEvent, ih]

theorem filter_isCopyFrom_mapCopyFrom (l : List dockerCopyFromPath) :
    (l.map Event.copyFrom).filter isCopyFromEvent = l.map Event.copyFrom := by
  induction l with
  | nil => rfl
  | cons p rest ih => simp [isCopyFromEvent, ih]

theorem filter_isCopyTo_mapCopyTo (l : List dockerCopyToPath) :
    (l.map Event.copyTo).filter isCopyToEvent = l.map Event.copyTo := by
  induction l with
  | nil => rfl
  | cons p rest ih => simp [isCopyToEvent, ih]

/-- On a run whose copy-in, start, attach, stream, and inspect steps all
succeed, `managerBody` reduces to the inspect-time case split of lines
147-160. -/
theorem managerBody_at_inspect (env : DockerEnv) (cin : List dockerCopyToPath)
    (cout : List dockerCopyFromPath) (stream : String) (info : ContainerState)
    (hcin : ∀ p ∈ cin, env.copyToContainer p = none)
    (hs : env.containerStart = none)
    (ha : env.containerAttach = Except.ok stream)
    (hst : env.streamCopyErr = none)
    (hi : env.containerInspect = Except.ok info) :
    managerBody env cin cout =
      if info.ExitCode = 0 then
        match copyOutErr env.copyFromContainer cout with
        | some e => (⟨"", none, some e⟩, cin.map Event.copyTo ++ [Event.start, Event.attach, Event.inspect] ++ copyOutEvents env.copyFromContainer cout)
        | none =>
          if info.Running then
            (⟨normalizeOutput stream, none, none⟩, cin.map Event.copyTo ++ [Event.start, Event.attach, Event.inspect] ++ copyOutEvents env.copyFromContainer cout)
          else
            (⟨normalizeOutput stream, some info.ExitCode, none⟩, cin.map Event.copyTo ++ [Event.start, Event.attach, Event.inspect] ++ copyOutEvents env.copyFromContainer cout)
      else
        if info.Running then
          (⟨normalizeOutput stream, none, none⟩, cin.map Event.copyTo ++ [Event.start, Event.attach, Event.inspect])
        else
          (⟨normalizeOutput stream, some info.ExitCode, none⟩, cin.map Event.copyTo ++ [Event.start, Event.attach, Event.inspect]) := by
  unfold managerBody
  rw [copyInErr_all_ok _ _ hcin, copyInEvents_all_ok _ _ hcin, hs, ha, hst, hi]

/-- The trace of the run on `envRunning` with the single copy-out
directive `pOut`: the copy-out executes although inspect reported the
container as still running. -/
def tRunningCopyOut : List Event :=
  [Event.pull "img", Event.create, Event.start, Event.attach, Event.inspect,
   Event.copyFrom pOut, Event.remove "cid" true true]

/-- Claim C2 counterexample: a run that reaches inspection with the
container still reported running and exit code 0 (the value docker
reports for a running container) does execute its copy-out directive —
the code gates copy-out only on `ExitCode == 0`, never on the state
being terminal, so "a still-running container at inspection time never
triggers copy-out" is false. -/
theorem c2_still_running_triggers_copyout :
    envRunning.containerInspect = Except.ok ⟨true, 0⟩ ∧
    runManager envRunning cfgEx false [] [pOut] =
      some (⟨"hello\nworld\n", none, none⟩, tRunningCopyOut, cfgExAug) ∧
    Event.copyFrom pOut ∈ tRunningCopyOut :=
  ⟨rfl, by decide, by decide⟩

/-- Claim C2 (amended): for every run that reaches inspection, the
copy-out directives execute exactly when the inspected exit code equals
zero — regardless of whether the container is still reported running —
in list order; when the inspected exit code is non-zero, no copy-out
directive executes. -/
theorem c2_copyout_gated_on_exit_code
    (env : DockerEnv) (cfg : ContainerConfig) (b : Bool)
    (cin : List dockerCopyToPath) (cout : List dockerCopyFromPath)
    (r : RunResult) (t : List Event) (c : ContainerConfig)
    (pb : Bool) (id stream : String) (info : ContainerState)
    (hrun : runManager env cfg b cin cout = some (r, t, c))
    (hg : env.getDockerClient = Except.ok ())
    (hp : env.pullImage = Except.ok pb)
    (hc : env.containerCreate = Except.ok id)
    (hcin : ∀ p ∈ cin, env.copyToContainer p = none)
    (hs : env.containerStart = none)
    (ha : env.containerAttach = Except.ok stream)
    (hst : env.streamCopyErr = none)
    (hi : env.containerInspect = Except.ok info) :
    (info.ExitCode ≠ 0 → t.filter isCopyFromEvent = []) ∧
    (info.ExitCode = 0 → (∀ p ∈ cout, env.copyFromContainer p = none) →
      t.filter isCopyFromEvent = cout.map Event.copyFrom) := by
  unfold runManager at hrun
  split at hrun
  · exact Option.noConfusion hrun
  · simp only [hg, hp, hc] at hrun
    rw [managerBody_at_inspect env cin cout stream info hcin hs ha hst hi] at hrun
    constructor
    · intro hne
      rw [if_neg hne] at hrun
      split at hrun <;>
      · simp only [Option.some.injEq, Prod.mk.injEq] at hrun
        obtain ⟨h1, h2, h3⟩ := hrun
        rw [← h2]
        simp [List.filter_append, filter_isCopyFrom_mapCopyTo, isCopyFromEvent]
    · intro hec hco
      rw [if_pos hec] at hrun
      simp only [copyOutErr_all_ok _ _ hco, copyOutEvents_all_ok _ _ hco] at hrun
      split at hrun <;>
      · simp only [Option.some.injEq, Prod.mk.injEq] at hrun
        obtain ⟨h1, h2, h3⟩ := hrun
        rw [← h2]
        simp [List.filter_append, filter_isCopyFrom_mapCopyTo,
          filter_isCopyFrom_mapCopyFrom, isCopyFromEvent]

/-- The trace of the fully successful run with one copy-out directive. -/
def tOkCopyOut : List Event :=
  [Event.pull "img", Event.create, Event.start, Event.attach, Event.inspect,
   Event.copyFrom pOut, Event.remove "cid" true true]

theorem c2_copyout_gated_on_exit_code_witness :
    runManager envAllOk cfgEx false [] [pOut] = some (rOkEx, tOkCopyOut, cfgExAug) ∧
      tOkCopyOut.filter isCopyFromEvent = [Event.copyFrom pOut] :=
  ⟨by decide,
    (c2_copyout_gated_on_exit_code envAllOk cfgEx false [] [pOut] rOkEx tOkCopyOut
      cfgExAug false "cid" "hello\r\nworld\r\n" ⟨false, 0⟩ (by decide) rfl rfl rfl
      (by simp) rfl rfl rfl rfl).2 rfl (fun p _ => rfl)⟩

/-- The trace of a run whose single copy-out directive fails after a
zero exit code. -/
def tCopyOutFail : List Event :=
  [Event.pull "img", Event.create, Event.start, Event.attach, Event.inspect,
   Event.copyFrom pOut, Event.remove "cid" true true]

/-- Claim C3 counterexample: on a run where every step through
inspection succeeds, the inspected exit code is zero, and the copy-out
directive fails, `runManager` returns the error together with a NIL
exit code (and empty output) — not "the zero exit code" the claim
states (line 151 returns `"", nil, err`). -/
theorem c3_copyout_failure_returns_nil_code :
    runManager envCopyOutFail cfgEx false [] [pOut] =
      some (⟨"", none, some "copy out failed"⟩, tCopyOutFail, cfgExAug) ∧
    (⟨"", none, some "copy out failed"⟩ : RunResult).exitCode ≠ some 0 :=
  ⟨by decide, by decide⟩

/-- Claim C3 (amended): for every run in which all steps through
inspection succeed, the inspected exit code is zero, and some copy-out
directive fails (first failure `e`), `runManager` returns the non-nil
error `e` together with a nil exit code and empty output; the caller
distinguishes "workload failed" from "result retrieval failed" by the
error being non-nil, not by the returned exit code (which is absent). -/
theorem c3_copyout_failure_is_run_error
    (env : DockerEnv) (cfg : ContainerConfig) (b : Bool)
    (cin : List dockerCopyToPath) (pre post : List dockerCopyFromPath)
    (p : dockerCopyFromPath) (e : String)
    (r : RunResult) (t : List Event) (c : ContainerConfig)
    (pb : Bool) (id stream : String) (info : ContainerState)
    (hrun : runManager env cfg b cin (pre ++ p :: post) = some (r, t, c))
    (hg : env.getDockerClient = Except.ok ())
    (hp : env.pullImage = Except.ok pb)
    (hc : env.containerCreate = Except.ok id)
    (hcin : ∀ q ∈ cin, env.copyToContainer q = none)
    (hs : env.containerStart = none)
    (ha : env.containerAttach = Except.ok stream)
    (hst : env.streamCopyErr = none)
    (hi : env.containerInspect = Except.ok info)
    (hec : info.ExitCode = 0)
    (hpre : ∀ q ∈ pre, env.copyFromContainer q = none)
    (hfail : env.copyFromContainer p = some e) :
    r = ⟨"", none, some e⟩ := by
  unfold runManager at hrun
  split at hrun
  · exact Option.noConfusion hrun
  · simp only [hg, hp, hc] at hrun
    rw [managerBody_at_inspect env cin (pre ++ p :: post) stream info hcin hs ha hst hi] at hrun
    rw [if_pos hec] at hrun
    simp only [copyOutErr_firstFail env.copyFromContainer p e post pre hpre hfail] at hrun
    simp only [Option.some.injEq, Prod.mk.injEq] at hrun
    exact hrun.1.symm

theorem c3_copyout_failure_is_run_error_witness :
    runManager envCopyOutFail cfgEx false [] [pOut] =
      some (⟨"", none, some "copy out failed"⟩, tCopyOutFail, cfgExAug) ∧
    (⟨"", none, some "copy out failed"⟩ : RunResult) = ⟨"", none, some "copy out failed"⟩ :=
  ⟨by decide,
    c3_copyout_failure_is_run_error envCopyOutFail cfgEx false [] [] [] pOut
      "copy out failed" ⟨"", none, some "copy out failed"⟩ tCopyOutFail cfgExAug
      false "cid" "hello\r\nworld\r\n" ⟨false, 0⟩ (by decide) rfl rfl rfl
      (by simp) rfl rfl rfl rfl rfl (by simp) rfl⟩

/-- Claim C4: for every run in which all steps succeed but the
inspected container state still reports running, `runManager` returns
the captured (normalized) output together with a nil exit code and a
nil error — the absent exit code, not an error value, signals the
anomalous state. -/
theorem c4_still_running_returns_nil_code
    (env : DockerEnv) (cfg : ContainerConfig) (b : Bool)
    (cin : List dockerCopyToPath) (cout : List dockerCopyFromPath)
    (r : RunResult) (t : List Event) (c : ContainerConfig)
    (pb : Bool) (id stream : String) (info : ContainerState)
    (hrun : runManager env cfg b cin cout = some (r, t, c))
    (hg : env.getDockerClient = Except.ok ())
    (hp : env.pullImage = Except.ok pb)
    (hc : env.containerCreate = Except.ok id)
    (hcin : ∀ q ∈ cin, env.copyToContainer q = none)
    (hs : env.containerStart = none)
    (ha : env.containerAttach = Except.ok stream)
    (hst : env.streamCopyErr = none)
    (hi : env.containerInspect = Except.ok info)
    (hco : ∀ q ∈ cout, env.copyFromContainer q = none)
    (hrunning : info.Running = true) :
    r = ⟨normalizeOutput stream, none, none⟩ := by
  unfold runManager at hrun
  split at hrun
  · exact Option.noConfusion hrun
  · simp only [hg, hp, hc] at hrun
    rw [managerBody_at_inspect env cin cout stream info hcin hs ha hst hi] at hrun
    by_cases hec : info.ExitCode = 0
    · rw [if_pos hec] at hrun
      simp only [copyOutErr_all_ok _ _ hco, copyOutEvents_all_ok _ _ hco] at hrun
      rw [if_pos hrunning] at hrun
      simp only [Option.some.injEq, Prod.mk.injEq] at hrun
      exact hrun.1.symm
    · rw [if_neg hec, if_pos hrunning] at hrun
      simp only [Option.some.injEq, Prod.mk.injEq] at hrun
      exact hrun.1.symm

/-- The trace of the still-running run with no copy directives. -/
def tRunningEx : List Event :=
  [Event.pull "img", Event.create, Event.start, Event.attach, Event.inspect,
   Event.remove "cid" true true]

theorem c4_still_running_returns_nil_code_witness :
    runManager envRunning cfgEx false [] [] =
      some (⟨"hello\nworld\n", none, none⟩, tRunningEx, cfgExAug) ∧
    (⟨"hello\nworld\n", none, none⟩ : RunResult) =
      ⟨normalizeOutput "hello\r\nworld\r\n", none, none⟩ :=
  ⟨by decide,
    c4_still_running_returns_nil_code envRunning cfgEx false [] []
      ⟨"hello\nworld\n", none, none⟩ tRunningEx cfgExAug false "cid"
      "hello\r\nworld\r\n" ⟨true, 0⟩ (by decide) rfl rfl rfl (by simp) rfl rfl
      rfl rfl (by simp) rfl⟩

theorem copyTosBeforeStart_pull (i : String) (t : List Event) :
    copyTosBeforeStart (Event.pull i :: t) = copyTosBeforeStart t := rfl

theorem copyTosBeforeStart_create (t : List Event) :
    copyTosBeforeStart (Event.create :: t) = copyTosBeforeStart t := rfl

theorem copyTosBeforeStart_start_cons (t : List Event) :
    copyTosBeforeStart (Event.start :: t) = noCopyTo t := rfl

theorem copyTosBeforeStart_remove (id : String) (rv fo : Bool) (t : List Event) :
    copyTosBeforeStart (Event.remove id rv fo :: t) = copyTosBeforeStart t := rfl

theorem copyTosBeforeStart_nil : copyTosBeforeStart [] = true := rfl

theorem noCopyTo_attach (t : List Event) :
    noCopyTo (Event.attach :: t) = noCopyTo t := rfl

theorem noCopyTo_inspect (t : List Event) :
    noCopyTo (Event.inspect :: t) = noCopyTo t := rfl

theorem noCopyTo_remove (id : String) (rv fo : Bool) (t : List Event) :
    noCopyTo (Event.remove id rv fo :: t) = noCopyTo t := rfl

theorem noCopyTo_nil : noCopyTo [] = true := rfl

theorem copyTosBeforeStart_body (env : DockerEnv) (cin : List dockerCopyToPath)
    (cout : List dockerCopyFromPath) (id : String) :
    copyTosBeforeStart ((managerBody env cin cout).2 ++ [Event.remove id true true]) = true := by
  unfold managerBody
  repeat' split
  all_goals
    simp [List.append_assoc, copyTosBeforeStart_copyInEvents_append,
      copyTosBeforeStart_start_cons, copyTosBeforeStart_remove, copyTosBeforeStart_nil,
      noCopyTo_attach, noCopyTo_inspect, noCopyTo_remove, noCopyTo_nil,
      noCopyTo_copyOutEvents_append]

/-- Claim C6: for every run, the copy-in directives are executed in
list order, strictly before the container is started (in every trace
all copy-in calls precede any start call); and on the first copy-in
failure `runManager` returns immediately with that error and the
container is never started. -/
theorem c6_copyin_order_before_start :
    (∀ env cfg (b : Bool) cin cout r t c,
        runManager env cfg b cin cout = some (r, t, c) →
        copyTosBeforeStart t = true) ∧
    (∀ env cfg (b : Bool) pre (p : dockerCopyToPath) post cout r t c (pb : Bool)
        (id e : String),
        runManager env cfg b (pre ++ p :: post) cout = some (r, t, c) →
        env.getDockerClient = Except.ok () →
        env.pullImage = Except.ok pb →
        env.containerCreate = Except.ok id →
        (∀ q ∈ pre, env.copyToContainer q = none) →
        env.copyToContainer p = some e →
        r = ⟨"", none, some e⟩ ∧ Event.start ∉ t ∧
          t.filter isCopyToEvent = (pre ++ [p]).map Event.copyTo) := by
  constructor
  · intro env cfg b cin cout r t c hrun
    unfold runManager at hrun
    split at hrun
    · exact Option.noConfusion hrun
    · cases hg : env.getDockerClient with
      | error e =>
        simp only [hg, Option.some.injEq, Prod.mk.injEq] at hrun
        rw [← hrun.2.1]; rfl
      | ok u =>
        cases hp : env.pullImage with
        | error e =>
          simp only [hg, hp, Option.some.injEq, Prod.mk.injEq] at hrun
          rw [← hrun.2.1]; rfl
        | ok pb =>
          cases hc : env.containerCreate with
          | error e =>
            simp only [hg, hp, hc, Option.some.injEq, Prod.mk.injEq] at hrun
            rw [← hrun.2.1]; rfl
          | ok id =>
            simp only [hg, hp, hc, Option.some.injEq, Prod.mk.injEq] at hrun
            rw [← hrun.2.1]
            simp only [List.append_assoc, List.cons_append, List.nil_append,
              copyTosBeforeStart_pull, copyTosBeforeStart_create]
            exact copyTosBeforeStart_body env cin cout id
  · intro env cfg b pre p post cout r t c pb id e hrun hg hp hc hpre hfail
    unfold runManager at hrun
    split at hrun
    · exact Option.noConfusion hrun
    · simp only [hg, hp, hc] at hrun
      unfold managerBody at hrun
      simp only [copyInErr_firstFail env.copyToContainer p e post pre hpre hfail,
        copyInEvents_firstFail env.copyToContainer p e post pre hpre hfail] at hrun
      simp only [Option.some.injEq, Prod.mk.injEq] at hrun
      obtain ⟨h1, h2, h3⟩ := hrun
      refine ⟨h1.symm, ?_, ?_⟩
      · rw [← h2]
        simp [List.mem_append, List.mem_map]
      · rw [← h2]
        simp [List.filter_append, filter_isCopyTo_mapCopyTo,
          filter_isCopyTo_copyOutEvents, isCopyToEvent]

/-- The trace of a run whose single copy-in directive fails. -/
def tCopyInFail : List Event :=
  [Event.pull "img", Event.create, Event.copyTo pIn, Event.remove "cid" true true]

theorem c6_copyin_order_before_start_witness :
    runManager envCopyInFail cfgEx false [pIn] [] =
      some (⟨"", none, some "copy in failed"⟩, tCopyInFail, cfgExAug) ∧
    copyTosBeforeStart tCopyInFail = true ∧
    Event.start ∉ tCopyInFail :=
  ⟨by decide,
    c6_copyin_order_before_start.1 envCopyInFail cfgEx false [pIn] []
      ⟨"", none, some "copy in failed"⟩ tCopyInFail cfgExAug (by decide),
    (c6_copyin_order_before_start.2 envCopyInFail cfgEx false [] pIn [] []
      ⟨"", none, some "copy in failed"⟩ tCopyInFail cfgExAug false "cid"
      "copy in failed" (by decide) rfl rfl rfl (by simp) rfl).2.1⟩

/-- Claim C7 counterexample: normalization is not idempotent on every
byte string.  On `"\r\r\n"` one pass yields `"\r\n"` (the first
carriage return is untouched, the following `\r\n` collapses), and a
second pass collapses the newly adjacent pair to `"\n"`. -/
theorem c7_normalization_not_idempotent :
    normalizeOutput "\r\r\n" = "\r\n" ∧
    normalizeOutput (normalizeOutput "\r\r\n") ≠ normalizeOutput "\r\r\n" :=
  ⟨by decide, by decide⟩

theorem replaceCRLF_idem : ∀ l : List Char, hasCRCRLF l = false →
    replaceCRLF (replaceCRLF l) = replaceCRLF l := by
  intro l
  induction l using replaceCRLF.induct with
  | case1 => intro _; rfl
  | case2 rest ih =>
    intro h
    have h' : hasCRCRLF rest = false := h
    rw [replaceCRLF.eq_2]
    rw [replaceCRLF.eq_3 '\n' (replaceCRLF rest) (fun r1 hc _ => by exact absurd hc (by decide))]
    rw [ih h']
  | case3 c rest hne ih =>
    intro h
    rw [replaceCRLF.eq_3 c rest hne]
    by_cases hc : c = '\r'
    · subst hc
      cases rest with
      | nil => rfl
      | cons d r2 =>
        have hd : d ≠ '\n' := fun hdeq => hne r2 rfl (by rw [hdeq])
        have hside : ∀ tail : List Char, d = '\r' → r2 = '\n' :: tail → False := by
          intro tail hdr hr2
          subst hdr; subst hr2
          rw [hasCRCRLF.eq_1] at h
          exact Bool.noConfusion h
        have h' : hasCRCRLF (d :: r2) = false := by
          rw [hasCRCRLF.eq_2 '\r' (d :: r2) (fun tail _ heq => by
            injection heq with hd1 hr1
            exact hside tail hd1 hr1)] at h
          exact h
        have hstep : replaceCRLF (d :: r2) = d :: replaceCRLF r2 :=
          replaceCRLF.eq_3 d r2 (fun tail hdr hr2 => hside tail hdr hr2)
        rw [hstep]
        rw [replaceCRLF.eq_3 '\r' (d :: replaceCRLF r2) (fun r1 _ heq => by
          injection heq with hd1 _
          exact hd hd1)]
        have ih' := ih h'
        rw [hstep] at ih'
        rw [ih']
    · have h' : hasCRCRLF rest = false := by
        rw [hasCRCRLF.eq_2 c rest (fun tail hcr _ => hc hcr)] at h
        exact h
      rw [replaceCRLF.eq_3 c (replaceCRLF rest) (fun r1 hcr _ => hc hcr)]
      rw [ih h']

/-- Claim C7 (amended): newline normalization is deterministic and
total (it is a function), and it is idempotent on every byte string
that contains no `"\r\r\n"` run; on such a string normalizing the
normalized result yields the same text as normalizing once.  (On
strings containing `"\r\r\n"` a second pass can differ.) -/
theorem c7_normalization_idempotent
    (s : String) (h : hasCRCRLF s.data = false) :
    normalizeOutput (normalizeOutput s) = normalizeOutput s := by
  show String.mk (replaceCRLF (replaceCRLF s.data)) = String.mk (replaceCRLF s.data)
  exact congrArg String.mk (replaceCRLF_idem s.data h)

theorem c7_normalization_idempotent_witness :
    hasCRCRLF ("hello\r\nworld\r\n".data) = false ∧
    normalizeOutput (normalizeOutput "hello\r\nworld\r\n") =
      normalizeOutput "hello\r\nworld\r\n" :=
  ⟨by decide, c7_normalization_idempotent "hello\r\nworld\r\n" (by decide)⟩

theorem runManager_final_config (env : DockerEnv) (cfg : ContainerConfig)
    (b : Bool) (cin : List dockerCopyToPath) (cout : List dockerCopyFromPath)
    (r : RunResult) (t : List Event) (c : ContainerConfig)
    (hrun : runManager env cfg b cin cout = some (r, t, c)) :
    augmentConfig cfg = some c := by
  unfold runManager at hrun
  split at hrun
  · exact Option.noConfusion hrun
  · rename_i cfg' heq
    repeat' split at hrun
    all_goals
      simp only [Option.some.injEq, Prod.mk.injEq] at hrun
    all_goals rw [heq, hrun.2.2]

/-- Claim C8 counterexample: the Container Specification is not an
immutable input — after a run, the configuration's command and
environment list differ from the values the invocation variant
constructed (the controller itself rewrites `Env` and `Cmd[0]` on lines
56-59). -/
theorem c8_config_is_mutated :
    runManager envAllOk cfgEx false [] [] = some (rOkEx, tOkEx, cfgExAug) ∧
    cfgExAug.Cmd ≠ cfgEx.Cmd ∧ cfgExAug.Env ≠ cfgEx.Env :=
  ⟨by decide, by decide, by decide⟩

/-- Claim C8 (amended): the controller's initial augmentation step
appends the CLI-version entry to the environment list and prepends the
fixed delay plus version-compatibility check to the first command
entry; apart from these two writes no field of the Container
Specification is mutated by the controller or any later step of the
run — image, entrypoint, TTY and attach flags are never mutated at
all, and the configuration at the end of the run is exactly the
augmented one. -/
theorem c8_config_mutation_is_exactly_augmentation
    (env : DockerEnv) (cfg : ContainerConfig) (b : Bool)
    (cin : List dockerCopyToPath) (cout : List dockerCopyFromPath)
    (r : RunResult) (t : List Event) (c : ContainerConfig)
    (c0 : String) (rest : List String)
    (hrun : runManager env cfg b cin cout = some (r, t, c))
    (hcmd : cfg.Cmd = c0 :: rest) :
    c.Image = cfg.Image ∧ c.Entrypoint = cfg.Entrypoint ∧ c.Tty = cfg.Tty ∧
    c.AttachStdout = cfg.AttachStdout ∧ c.AttachStderr = cfg.AttachStderr ∧
    c.Env = cfg.Env ++ [cortexVersionEnvEntry] ∧
    c.Cmd = (cmdAugmentation ++ c0) :: rest := by
  have h := runManager_final_config env cfg b cin cout r t c hrun
  unfold augmentConfig at h
  rw [hcmd] at h
  simp only [Option.some.injEq] at h
  rw [← h]
  simp

theorem c8_config_mutation_is_exactly_augmentation_witness :
    runManager envAllOk cfgEx false [] [] = some (rOkEx, tOkEx, cfgExAug) ∧
    cfgExAug.Env = cfgEx.Env ++ [cortexVersionEnvEntry] ∧
    cfgExAug.Cmd = (cmdAugmentation ++ "echo hi") :: [] :=
  ⟨by decide,
    (c8_config_mutation_is_exactly_augmentation envAllOk cfgEx false [] []
      rOkEx tOkEx cfgExAug "echo hi" [] (by decide) rfl).2.2.2.2.2.1,
    (c8_config_mutation_is_exactly_augmentation envAllOk cfgEx false [] []
      rOkEx tOkEx cfgExAug "echo hi" [] (by decide) rfl).2.2.2.2.2.2⟩

/-- Claim C9 counterexample: the environment-injection and
command-augmentation step is not total over all inputs — on a
configuration whose command list is empty, the unconditional write to
`Cmd[0]` (line 59) is a runtime fault (index out of range), modelled
as `none`, and the whole run faults before any engine call. -/
theorem c9_empty_cmd_faults :
    augmentConfig cfgNoCmd = none ∧
    runManager envAllOk cfgNoCmd false [] [] = none :=
  ⟨rfl, rfl⟩

/-- Claim C9 (amended): for every container configuration whose command
list is nonempty, the environment-injection and command-augmentation
step completes without any possibility of failure — it is pure string
construction, producing the configuration with the CLI-version entry
appended to the environment and the fixed delay plus
version-compatibility check prepended to the first command entry. -/
theorem c9_augmentation_total_on_nonempty_cmd
    (cfg : ContainerConfig) (c0 : String) (rest : List String)
    (hcmd : cfg.Cmd = c0 :: rest) :
    augmentConfig cfg = some { cfg with
      Env := cfg.Env ++ [cortexVersionEnvEntry],
      Cmd := (cmdAugmentation ++ c0) :: rest } := by
  unfold augmentConfig
  rw [hcmd]

theorem c9_augmentation_total_on_nonempty_cmd_witness :
    cfgEx.Cmd = "echo hi" :: [] ∧ augmentConfig cfgEx = some cfgExAug :=
  ⟨rfl, by rw [c9_augmentation_total_on_nonempty_cmd cfgEx "echo hi" [] rfl]; rfl⟩

/-- Claim C10: whenever `runManager` returns a non-nil error, the
returned output is the empty string and the returned exit code is nil —
in particular, output captured from the attached stream before a later
step (inspect or copy-out) fails is discarded rather than returned
alongside the error. -/
theorem c10_error_implies_empty_output_nil_code
    (env : DockerEnv) (cfg : ContainerConfig) (b : Bool)
    (cin : List dockerCopyToPath) (cout : List dockerCopyFromPath)
    (r : RunResult) (t : List Event) (c : ContainerConfig)
    (hrun : runManager env cfg b cin cout = some (r, t, c))
    (herr : r.err ≠ none) :
    r.output = "" ∧ r.exitCode = none := by
  unfold runManager managerBody at hrun
  repeat' split at hrun
  all_goals
    first
    | exact Option.noConfusion hrun
    | (simp only [Option.some.injEq, Prod.mk.injEq] at hrun
       rw [← hrun.1] at herr ⊢
       first
       | exact ⟨rfl, rfl⟩
       | exact absurd rfl herr)

theorem c10_error_implies_empty_output_nil_code_witness :
    runManager envPullFail cfgEx false [] [] =
      some (⟨"", none, some "pull failed"⟩, [Event.pull "img"], cfgExAug) ∧
    ((⟨"", none, some "pull failed"⟩ : RunResult).output = "" ∧
     (⟨"", none, some "pull failed"⟩ : RunResult).exitCode = none) :=
  ⟨by decide,
    c10_error_implies_empty_output_nil_code envPullFail cfgEx false [] []
      ⟨"", none, some "pull failed"⟩ [Event.pull "img"] cfgExAug
      (by decide) (by decide)⟩
